import Mathlib

/-!
Verification development for the pyagents repository: a shallow embedding of
the SARSA(lambda) Pong agent (src/agents/sarsa.py) and of the Pong frame
preprocessing module (src/util/pongcess.py), together with theorems settling
the specification claims about them.

Conventions of the embedding:
* numpy float64 arithmetic in the learner is embedded as exact rational
  arithmetic (the claims under study are structural, not about rounding);
* the value table q_vals and the eligibility table e_vals are embedded as
  total functions Nat -> Nat -> Rat (entries outside the allocated
  (n_states, n_actions) rectangle are never read by the embedded code);
* the ball-intercept geometry (float32 with division by zero) is embedded
  with an explicit extended value type F carrying infinities and a NaN,
  mirroring IEEE special-value propagation exactly (no rounding is needed on
  the traces analysed, where every intermediate value is exactly
  representable);
* sources of randomness (the epsilon-greedy draw) are passed in as an
  explicit oracle argument;
* Python exceptions that the code catches locally (ValueError in
  Positions.update) are embedded as Option, and the KeyError of
  StateIndex.process as an Option result.
-/

/-! ### Constants of src/util/pongcess.py -/

def BALL_COLOR : Nat := 14

def BACKGROUND_COLOR : Nat := 34

def AGENT_COLOR : Nat := 200

def AGENT_X : Nat := 140

def OPPONENT_COLOR : Nat := 56

def OPPONENT_X : Nat := 19

def PLAY_AREA_TOP : Nat := 34

def PLAY_AREA_BOTTOM : Nat := 194

/-- Height of the cropped play field: PLAY_AREA_BOTTOM - PLAY_AREA_TOP rows. -/
def cropHeight : Nat := PLAY_AREA_BOTTOM - PLAY_AREA_TOP

/-- Width of the raw frame (X_RANGE = np.arange(160)). -/
def frameWidth : Nat := 160

/-! ### StateIndex (src/util/pongcess.py, class StateIndex)

CPython builds the index as a dict over enumerate(states): a later duplicate
key overwrites an earlier one, so lookup yields the index of the last
occurrence.  A key absent from the dict raises KeyError, embedded as none. -/

/-- The mapping of StateIndex.state2index followed by the dict lookup of
StateIndex.process: returns the enumeration index of the last occurrence of
v in states, or none (KeyError) when v is not enumerated. -/
def state2index {α : Type} [DecidableEq α] : List α → α → Option Nat
  | [], _ => none
  | s :: rest, v =>
    match state2index rest v with
    | some i => some (i + 1)
    | none => if s = v then some 0 else none

/-! ### Positions (src/util/pongcess.py, class Positions)

A raw frame is a 210 x 160 grid of palette values; Positions.update reshapes
and crops it to rows PLAY_AREA_TOP..PLAY_AREA_BOTTOM-1. We embed the raw
frame as a total function from (row, column) to palette value. -/

def Frame : Type := Nat → Nat → Nat

structure Positions where
  ball : Nat × Nat
  agent : Nat
  opponent : Nat

/-- Positions.__init__: ball (0,0), agent 0, opponent 0. -/
def posInit : Positions := ⟨(0, 0), 0, 0⟩

/-- Positions.get_mean_pos_1d: select the indices 0..len-1 satisfying the
selection mask (array == value, or array > 0 for the summed-axis mode) and
return the truncated mean int(np.average(indices)); with no matching index
np.average yields NaN and int(NaN) raises ValueError, embedded as none. -/
def get_mean_pos_1d (len : Nat) (sel : Nat → Bool) : Option Nat :=
  let idxs := (List.range len).filter sel
  if idxs.isEmpty then none else some (idxs.sum / idxs.length)

/-- Positions.update: crop to the play-field band, then update agent
(column AGENT_X == AGENT_COLOR), opponent (column OPPONENT_X ==
OPPONENT_COLOR) and ball (row/column projections of BALL_COLOR); each
detection failure (ValueError) is caught and the previous value is kept. -/
def Positions.update (p : Positions) (fr : Frame) : Positions :=
  let agent' := (get_mean_pos_1d cropHeight
    (fun r => fr (PLAY_AREA_TOP + r) AGENT_X == AGENT_COLOR)).getD p.agent
  let opponent' := (get_mean_pos_1d cropHeight
    (fun r => fr (PLAY_AREA_TOP + r) OPPONENT_X == OPPONENT_COLOR)).getD p.opponent
  let ballX := get_mean_pos_1d frameWidth
    (fun c => (List.range cropHeight).any (fun r => fr (PLAY_AREA_TOP + r) c == BALL_COLOR))
  let ballY := get_mean_pos_1d cropHeight
    (fun r => (List.range frameWidth).any (fun c => fr (PLAY_AREA_TOP + r) c == BALL_COLOR))
  let ball' :=
    match ballX, ballY with
    | some x, some y => (x, y)
    | _, _ => p.ball
  { ball := ball', agent := agent', opponent := opponent' }

/-! ### RelativeBall (src/util/pongcess.py, class RelativeBall) -/

/-- RelativeBall.process after Positions.update: ball y-centroid minus agent
y-centroid, as a (possibly negative) integer. -/
def relativeBallValue (p : Positions) : ℤ := (p.ball.2 : ℤ) - (p.agent : ℤ)

/-- One tick of RelativeBall.process: update the positions from the frame,
then return the relative offset together with the new position state. -/
def relativeBallStep (p : Positions) (fr : Frame) : ℤ × Positions :=
  let p' := p.update fr
  (relativeBallValue p', p')

/-- RelativeBall.enumerate_states: list(set([b - p for p in Y_RANGE for b in
Y_RANGE])), embedded as the deduplicated list of differences. -/
def relativeBallEnum : List ℤ :=
  ((List.range cropHeight).flatMap
    (fun (p : Nat) => (List.range cropHeight).map
      (fun (b : Nat) => (b : ℤ) - (p : ℤ)))).dedup

/-! ### BallIntercept (src/util/pongcess.py, class BallIntercept)

The geometry runs on numpy float32 vectors, where division by zero produces
a signed infinity (or NaN for 0/0) and comparisons with NaN are false. We
embed the values as exact rationals extended with two infinities and a NaN;
on the traces analysed below every finite intermediate value is exactly
representable in float32 and no rounding occurs, so the embedding follows
the IEEE special-value propagation of the source faithfully. A negative
zero never changes a branch taken here (comparisons against 0 and NaN
results agree), so zero is unsigned in the embedding. -/

inductive F : Type where
  | fin : ℚ → F
  | inf : Bool → F
  | nan : F
deriving DecidableEq

def F.neg : F → F
  | .fin q => .fin (-q)
  | .inf s => .inf (!s)
  | .nan => .nan

def F.add : F → F → F
  | .fin a, .fin b => .fin (a + b)
  | .fin _, .inf s => .inf s
  | .inf s, .fin _ => .inf s
  | .inf s, .inf t => if s = t then .inf s else .nan
  | _, _ => .nan

def F.sub (a b : F) : F := F.add a (F.neg b)

def F.mul : F → F → F
  | .fin a, .fin b => .fin (a * b)
  | .fin a, .inf s => if a = 0 then .nan else if 0 < a then .inf s else .inf (!s)
  | .inf s, .fin b => if b = 0 then .nan else if 0 < b then .inf s else .inf (!s)
  | .inf s, .inf t => .inf (s == t)
  | _, _ => .nan

def F.div : F → F → F
  | .fin a, .fin b =>
    if b = 0 then (if a = 0 then .nan else if 0 < a then .inf true else .inf false)
    else .fin (a / b)
  | .fin _, .inf _ => .fin 0
  | .inf s, .fin b => if 0 ≤ b then .inf s else .inf (!s)
  | .inf _, .inf _ => .nan
  | _, _ => .nan

def F.lt : F → F → Bool
  | .fin a, .fin b => decide (a < b)
  | .fin _, .inf s => s
  | .inf s, .fin _ => !s
  | .inf s, .inf t => !s && t
  | _, _ => false

def F.le : F → F → Bool
  | .fin a, .fin b => decide (a ≤ b)
  | .fin _, .inf s => s
  | .inf s, .fin _ => !s
  | .inf s, .inf t => !s || t
  | _, _ => false

/-- A 2-d float vector (x, y), as used for ball positions and velocities. -/
def FV : Type := F × F

/-- Componentwise product with a constant vector (c, d), as in vel * (-1, 1). -/
def fvScale (v : FV) (c d : ℚ) : FV := (F.mul v.1 (F.fin c), F.mul v.2 (F.fin d))

/-- pos + a * vel for a scalar multiplier a. -/
def fvAddScaled (p : FV) (a : F) (v : FV) : FV :=
  (F.add p.1 (F.mul a v.1), F.add p.2 (F.mul a v.2))

def EDGE_LEFT : Nat := 0

def EDGE_TOP : Nat := 1

def EDGE_RIGHT : Nat := 2

def EDGE_BOTTOM : Nat := 3

/-- BallIntercept.top_bottom_intercept: next crossing of the bottom
(vel y positive; the y-axis is inverted) or top boundary line. -/
def top_bottom_intercept (pos vel : FV) : FV × FV × Nat :=
  let reflected := fvScale vel 1 (-1)
  if F.lt (F.fin 0) vel.2 then
    let a := F.div (F.sub (F.fin (PLAY_AREA_BOTTOM : ℚ)) pos.2) vel.2
    (fvAddScaled pos a vel, reflected, EDGE_BOTTOM)
  else
    let a := F.div (F.sub (F.fin (PLAY_AREA_TOP : ℚ)) pos.2) vel.2
    (fvAddScaled pos a vel, reflected, EDGE_TOP)

/-- BallIntercept.next_intercept: try the opponent-side plane when moving
left, otherwise the agent-side plane; fall back to a top/bottom bounce when
the side intercept leaves the vertical play band. -/
def next_intercept (pos vel : FV) : FV × FV × Nat :=
  let reflected := fvScale vel (-1) 1
  if F.lt vel.1 (F.fin 0) then
    let a := F.div (F.sub (F.fin (OPPONENT_X : ℚ)) pos.1) vel.1
    let intercept := fvAddScaled pos a vel
    if F.le (F.fin (PLAY_AREA_TOP : ℚ)) intercept.2 &&
        F.le intercept.2 (F.fin (PLAY_AREA_BOTTOM : ℚ)) then
      (intercept, reflected, EDGE_LEFT)
    else top_bottom_intercept pos vel
  else
    let a := F.div (F.sub (F.fin (AGENT_X : ℚ)) pos.1) vel.1
    let intercept := fvAddScaled pos a vel
    if F.le (F.fin (PLAY_AREA_TOP : ℚ)) intercept.2 &&
        F.le intercept.2 (F.fin (PLAY_AREA_BOTTOM : ℚ)) then
      (intercept, reflected, EDGE_RIGHT)
    else top_bottom_intercept pos vel

/-- The while-loop of BallIntercept.process ("while edge != self.RIGHT"),
iterated with explicit fuel: some final-position when an agent-side (RIGHT)
crossing is reached within the fuel bound, none otherwise. The source loop
has no fuel bound; it terminates exactly when some finite fuel suffices. -/
def interceptLoop : Nat → FV → FV → Option FV
  | 0, _, _ => none
  | fuel + 1, pos, vel =>
    let r := next_intercept pos vel
    if r.2.2 = EDGE_RIGHT then some r.1 else interceptLoop fuel r.1 r.2.1

/-- BallIntercept.process: the velocity is the displacement from the
last-seen ball position to the current one, then the reflection loop runs
until an agent-side crossing (here: within the given fuel). -/
def interceptProcess (fuel : Nat) (last ball : FV) : Option FV :=
  interceptLoop fuel ball (F.sub ball.1 last.1, F.sub ball.2 last.2)

/-! ### SarsaAgent (src/agents/sarsa.py)

The agent state gathers the constructor configuration, the frame-skip
schedule state, the pending (state, action) pair s_/a_, the pending-reward
accumulator r_, and the two tables allocated by set_available_actions.

src/util/managers.py is not part of the sources; the RepeatManager used as
self.action_repeat_manager is therefore modelled from the spec (see
repeatManagerSet below). The epsilon schedule only feeds the random draw of
e_greedy, which is embedded as an explicit oracle argument, so it needs no
state here. The trace-rule comparisons in the source use the Python
identity operator on interned string literals, which coincides with string
equality for the literal-configured values embedded here. -/

structure SarsaAgent where
  n_frames_per_action : Nat
  trace_type : String
  learning_rate : ℚ
  discount : ℚ
  lambda_v : ℚ
  repeatValue : Nat
  repeatCounter : Nat
  s_ : Nat
  a_ : Nat
  r_ : ℚ
  n_states : Nat
  n_actions : Nat
  q_vals : Nat → Nat → ℚ
  e_vals : Nat → Nat → ℚ

/-- SarsaAgent.__init__: configuration stored, s_ = a_ = 0, r_ = 0, a fresh
frame-skip schedule, and (not yet allocated) tables embedded as zero. -/
def SarsaAgent.init (k : Nat) (tt : String) (lr disc lam : ℚ) : SarsaAgent :=
  { n_frames_per_action := k
    trace_type := tt
    learning_rate := lr
    discount := disc
    lambda_v := lam
    repeatValue := 0
    repeatCounter := 0
    s_ := 0
    a_ := 0
    r_ := 0
    n_states := 0
    n_actions := 0
    q_vals := fun _ _ => 0
    e_vals := fun _ _ => 0 }

/-- SarsaAgent.set_available_actions: allocate q_vals and e_vals as zero
tables of shape (state_n, number of actions). -/
def set_available_actions (ag : SarsaAgent) (state_n n_act : Nat) : SarsaAgent :=
  { ag with
    n_states := state_n
    n_actions := n_act
    q_vals := fun _ _ => 0
    e_vals := fun _ _ => 0 }

/-- An agent as it stands right after construction plus
set_available_actions, before any call. -/
def sarsaSetup (k : Nat) (tt : String) (lr disc lam : ℚ) (state_n n_act : Nat) :
    SarsaAgent :=
  set_available_actions (SarsaAgent.init k tt lr disc lam) state_n n_act

/-- Modelled from the spec: util/managers.py (RepeatManager) is absent from
the sources. Per the spec's frame-skip schedule, after a decision stores an
action the schedule hands that action back unchanged for the next k-1 calls
(RepeatManager is constructed with n_frames_per_action - 1); storing resets
the remaining-repeat count. -/
def repeatManagerSet (ag : SarsaAgent) (a : Nat) : SarsaAgent :=
  { ag with repeatValue := a, repeatCounter := ag.n_frames_per_action - 1 }

/-- np.argmax over row s of q: first index below m attaining the maximum. -/
def argmaxRow (q : Nat → Nat → ℚ) (s m : Nat) : Nat :=
  (List.range m).foldl (fun best j => if q s best < q s j then j else best) 0

/-- SarsaAgent.e_greedy with the random draw externalized: explore = some ra
is the epsilon branch returning the random legal-action index ra, explore =
none is the greedy branch returning argmax over Q[sid, :]. -/
def e_greedy (ag : SarsaAgent) (sid : Nat) (explore : Option Nat) : Nat :=
  match explore with
  | some ra => ra
  | none => argmaxRow ag.q_vals sid ag.n_actions

/-- Pointwise single-entry assignment, as in self.e_vals[s, a] = v. -/
def updEntry (f : Nat → Nat → ℚ) (s a : Nat) (v : ℚ) : Nat → Nat → ℚ :=
  fun i j => if i = s ∧ j = a then v else f i j

/-- The TD error of the decision branch:
d = r + discount * Q[s', a'] - Q[s, a], with (s, a) the stored previous
pair and r the accumulated pending reward. -/
def decisionTD (ag : SarsaAgent) (s' a' : Nat) : ℚ :=
  ag.r_ + ag.discount * ag.q_vals s' a' - ag.q_vals ag.s_ ag.a_

/-- SarsaAgent.select_action, with the already-computed preprocessor state
index sid and the epsilon-greedy oracle passed in. The frame-skip check
(action_repeat_manager.next(), modelled from the spec) returns the stored
action for repeatCounter-many calls after a decision; a decision call runs
the SARSA(lambda) update: TD error, trace write per the trace_type string
chain (an unrecognized string updates nothing), full-table Q update, trace
decay, then stores (s', a'), drains r_ and returns a'. -/
def select_action (agent : SarsaAgent) (sid : Nat) (explore : Option Nat) :
    Nat × SarsaAgent :=
  if agent.repeatCounter = 0 then
    let s := agent.s_
    let a := agent.a_
    let s' := sid
    let a' := e_greedy agent s' explore
    let agent2 := repeatManagerSet agent a'
    let d := decisionTD agent2 s' a'
    let e1 :=
      if agent2.trace_type = "accumulating" then
        updEntry agent2.e_vals s a (agent2.e_vals s a + 1)
      else if agent2.trace_type = "replacing" then
        updEntry agent2.e_vals s a 1
      else if agent2.trace_type = "dutch" then
        updEntry agent2.e_vals s a (agent2.e_vals s a * (1 - agent2.learning_rate) + 1)
      else agent2.e_vals
    let q2 := fun i j => agent2.q_vals i j + agent2.learning_rate * d * e1 i j
    let e2 := fun i j => e1 i j * (agent2.discount * agent2.lambda_v)
    (a', { agent2 with s_ := s', a_ := a', r_ := 0, q_vals := q2, e_vals := e2 })
  else
    (agent.repeatValue, { agent with repeatCounter := agent.repeatCounter - 1 })

/-- SarsaAgent.receive_reward: accumulate into the pending reward. -/
def receive_reward (ag : SarsaAgent) (reward : ℚ) : SarsaAgent :=
  { ag with r_ := ag.r_ + reward }

/-- SarsaAgent.flush_experience: the body is pass. -/
def flush_experience (ag : SarsaAgent) : SarsaAgent := ag

/-- SarsaAgent.on_episode_end: only calls flush_experience. -/
def on_episode_end (ag : SarsaAgent) : SarsaAgent := flush_experience ag

/-! ### Spec-side definitions

These follow the wording of the specification (section 4.3 and section 9)
rather than the source, to be compared with the source-side definitions. -/

/-- The closed trace-rule variant the spec's section 9 asks for. -/
inductive TraceRule : Type where
  | accumulating : TraceRule
  | replacing : TraceRule
  | dutch : TraceRule
deriving DecidableEq

/-- Classifies a trace_type configuration string into the spec's closed
variant; none for a string outside the configuration surface. -/
def traceRuleOf (s : String) : Option TraceRule :=
  if s = "accumulating" then some .accumulating
  else if s = "replacing" then some .replacing
  else if s = "dutch" then some .dutch
  else none

/-- The trace update of the spec's section 4.3 step 4: E[s, a] becomes
E[s,a] + 1 (accumulating), 1 (replacing), or E[s,a] * (1 - learning_rate)
+ 1 (dutch); all other entries unchanged. -/
def specTraceUpdate (rule : TraceRule) (lr : ℚ) (E : Nat → Nat → ℚ) (s a : Nat) :
    Nat → Nat → ℚ :=
  fun i j =>
    if i = s ∧ j = a then
      match rule with
      | .accumulating => E s a + 1
      | .replacing => 1
      | .dutch => E s a * (1 - lr) + 1
    else E i j

/-! ### Runs of the agent -/

/-- The external events a running agent receives: a decision call (with its
preprocessed state index and exploration oracle), a reward notification,
and the episode-boundary hook. -/
inductive AgentEvent : Type where
  | sel : Nat → Option Nat → AgentEvent
  | rew : ℚ → AgentEvent
  | epEnd : AgentEvent

def applyEvent (ag : SarsaAgent) : AgentEvent → SarsaAgent
  | .sel sid o => (select_action ag sid o).2
  | .rew r => receive_reward ag r
  | .epEnd => on_episode_end ag

def runEvents (ag : SarsaAgent) (evs : List AgentEvent) : SarsaAgent :=
  evs.foldl applyEvent ag

/-- A sequence of select_action calls, collecting the returned actions. -/
def runSelects : SarsaAgent → List (Nat × Option Nat) → List Nat × SarsaAgent
  | ag, [] => ([], ag)
  | ag, inp :: rest =>
    let r := select_action ag inp.1 inp.2
    let rec' := runSelects r.2 rest
    (r.1 :: rec'.1, rec'.2)

/-! ## Helper lemmas -/

theorem state2index_some_of_mem {α : Type} [DecidableEq α] :
    ∀ (l : List α) (v : α), v ∈ l → ∃ i, state2index l v = some i := by
  intro l
  induction l with
  | nil => intro v h; simp at h
  | cons s rest ih =>
    intro v h
    rw [state2index]
    cases hrec : state2index rest v with
    | some j => exact ⟨j + 1, rfl⟩
    | none =>
      rcases List.mem_cons.mp h with hv | hv
      · exact ⟨0, by simp [hv.symm]⟩
      · obtain ⟨i, hi⟩ := ih v hv
        rw [hi] at hrec
        cases hrec

theorem state2index_get {α : Type} [DecidableEq α] :
    ∀ (l : List α) (v : α) (i : Nat), state2index l v = some i →
      ∃ h : i < l.length, l.get ⟨i, h⟩ = v := by
  intro l
  induction l with
  | nil => intro v i h; simp [state2index] at h
  | cons s rest ih =>
    intro v i h
    rw [state2index] at h
    cases hrec : state2index rest v with
    | some j =>
      rw [hrec] at h
      simp only [Option.some.injEq] at h
      subst h
      obtain ⟨hj, hget⟩ := ih v j hrec
      refine ⟨by simpa using Nat.succ_lt_succ hj, ?_⟩
      simpa using hget
    | none =>
      rw [hrec] at h
      by_cases hv : s = v
      · rw [if_pos hv] at h
        simp only [Option.some.injEq] at h
        subst h
        exact ⟨Nat.succ_pos _, hv⟩
      · simp [hv] at h

theorem state2index_eq_none {α : Type} [DecidableEq α] :
    ∀ (l : List α) (v : α), v ∉ l → state2index l v = none := by
  intro l
  induction l with
  | nil => intro v _; rfl
  | cons s rest ih =>
    intro v h
    have hs : v ≠ s := fun hv => h (hv ▸ List.mem_cons_self s rest)
    have hr : v ∉ rest := fun hv => h (List.mem_cons_of_mem s hv)
    rw [state2index, ih v hr]
    simp [Ne.symm hs]

theorem get_mean_pos_1d_eq_none (len : Nat) (sel : Nat → Bool)
    (h : ∀ i, i < len → sel i = false) : get_mean_pos_1d len sel = none := by
  unfold get_mean_pos_1d
  have hnil : (List.range len).filter sel = [] := by
    rw [List.filter_eq_nil_iff]
    intro a ha
    simp [h a (List.mem_range.mp ha)]
  simp [hnil]

theorem get_mean_pos_1d_lt (len : Nat) (sel : Nat → Bool) (y : Nat)
    (h : get_mean_pos_1d len sel = some y) : y < len := by
  unfold get_mean_pos_1d at h
  by_cases hemp : ((List.range len).filter sel).isEmpty
  · simp [hemp] at h
  · simp only [hemp, if_neg, Bool.false_eq_true, not_false_eq_true, if_false] at h
    have hy : y = ((List.range len).filter sel).sum / ((List.range len).filter sel).length := by
      exact (Option.some.injEq _ _ ▸ h).symm
    obtain ⟨x, hx⟩ : ∃ x, x ∈ (List.range len).filter sel := by
      have hne : (List.range len).filter sel ≠ [] := by
        intro hn
        rw [hn] at hemp
        simp at hemp
      exact List.exists_mem_of_ne_nil _ hne
    have hxlt : x < len := List.mem_range.mp (List.mem_of_mem_filter hx)
    have hlenpos : 0 < len := Nat.lt_of_le_of_lt (Nat.zero_le x) hxlt
    have hcardpos : 0 < ((List.range len).filter sel).length :=
      List.length_pos.mpr (List.ne_nil_of_mem hx)
    have hbound : ∀ z ∈ (List.range len).filter sel, z ≤ len - 1 := by
      intro z hz
      have := List.mem_range.mp (List.mem_of_mem_filter hz)
      omega
    have hsum : ((List.range len).filter sel).sum ≤
        ((List.range len).filter sel).length * (len - 1) := by
      have := List.sum_le_card_nsmul ((List.range len).filter sel) (len - 1) hbound
      simpa [smul_eq_mul] using this
    rw [hy]
    rw [Nat.div_lt_iff_lt_mul hcardpos]
    calc ((List.range len).filter sel).sum
        ≤ ((List.range len).filter sel).length * (len - 1) := hsum
      _ < ((List.range len).filter sel).length * len :=
          mul_lt_mul_of_pos_left (by omega) hcardpos
      _ = len * ((List.range len).filter sel).length := Nat.mul_comm _ _

/-- The position invariant maintained by Positions.update: the ball
y-centroid and the agent y-centroid are row indices of the cropped field. -/
def PosInv (p : Positions) : Prop := p.ball.2 < cropHeight ∧ p.agent < cropHeight

theorem posInv_update (p : Positions) (fr : Frame) (h : PosInv p) :
    PosInv (p.update fr) := by
  obtain ⟨hb, ha⟩ := h
  constructor
  · show (Positions.update p fr).ball.2 < cropHeight
    unfold Positions.update
    cases hX : get_mean_pos_1d frameWidth
        (fun c => (List.range cropHeight).any
          (fun r => fr (PLAY_AREA_TOP + r) c == BALL_COLOR)) with
    | none => simpa [hX] using hb
    | some x =>
      cases hY : get_mean_pos_1d cropHeight
          (fun r => (List.range frameWidth).any
            (fun c => fr (PLAY_AREA_TOP + r) c == BALL_COLOR)) with
      | none => simpa [hX, hY] using hb
      | some y =>
        simpa [hX, hY] using get_mean_pos_1d_lt _ _ _ hY
  · show (Positions.update p fr).agent < cropHeight
    unfold Positions.update
    cases hA : get_mean_pos_1d cropHeight
        (fun r => fr (PLAY_AREA_TOP + r) AGENT_X == AGENT_COLOR) with
    | none => simpa [hA] using ha
    | some a => simpa [hA] using get_mean_pos_1d_lt _ _ _ hA

theorem relativeBall_mem_enum (b p : Nat) (hb : b < cropHeight) (hp : p < cropHeight) :
    ((b : ℤ) - (p : ℤ)) ∈ relativeBallEnum := by
  simp only [relativeBallEnum, List.mem_dedup, List.mem_flatMap, List.mem_map,
    List.mem_range]
  exact ⟨p, hp, b, hb, rfl⟩

/-! ## Claim theorems -/

/-- Claim C5: StateIndex.process returns the dense index mapped to the
wrapped feature's current value whenever that value is in the
pre-enumerated domain (the returned index points at an enumeration entry
equal to the value), and fails (none, the KeyError) for every value
outside the domain, never clamping or substituting an index. -/
theorem stateIndex_maps_or_fails {α : Type} [DecidableEq α] (states : List α) (v : α) :
    (v ∈ states → ∃ i, state2index states v = some i ∧
      ∃ h : i < states.length, states.get ⟨i, h⟩ = v) ∧
    (v ∉ states → state2index states v = none) := by
  constructor
  · intro hv
    obtain ⟨i, hi⟩ := state2index_some_of_mem states v hv
    obtain ⟨h, hget⟩ := state2index_get states v i hi
    exact ⟨i, hi, h, hget⟩
  · exact state2index_eq_none states v

theorem stateIndex_maps_or_fails_witness :
    (3 : ℤ) ∈ [(5 : ℤ), 3, 8] ∧
    (∃ i, state2index [(5 : ℤ), 3, 8] (3 : ℤ) = some i ∧
      ∃ h : i < ([(5 : ℤ), 3, 8]).length, ([(5 : ℤ), 3, 8]).get ⟨i, h⟩ = (3 : ℤ)) ∧
    state2index [(5 : ℤ), 3, 8] (7 : ℤ) = none :=
  ⟨by decide,
   (stateIndex_maps_or_fails [(5 : ℤ), 3, 8] 3).1 (by decide),
   (stateIndex_maps_or_fails [(5 : ℤ), 3, 8] 7).2 (by decide)⟩

/-- Claim C8: a frame without the ball color in the cropped play field
leaves Positions.ball at its pre-call value (the ValueError is absorbed
locally), and likewise the agent and opponent fields hold their previous
values when their colors are absent from their scan columns. -/
theorem positions_detection_miss_holdover :
    (∀ (p : Positions) (fr : Frame),
      (∀ r c, r < cropHeight → c < frameWidth →
        fr (PLAY_AREA_TOP + r) c ≠ BALL_COLOR) →
      (p.update fr).ball = p.ball) ∧
    (∀ (p : Positions) (fr : Frame),
      (∀ r, r < cropHeight → fr (PLAY_AREA_TOP + r) AGENT_X ≠ AGENT_COLOR) →
      (p.update fr).agent = p.agent) ∧
    (∀ (p : Positions) (fr : Frame),
      (∀ r, r < cropHeight → fr (PLAY_AREA_TOP + r) OPPONENT_X ≠ OPPONENT_COLOR) →
      (p.update fr).opponent = p.opponent) := by
  refine ⟨?_, ?_, ?_⟩
  · intro p fr h
    have hx : get_mean_pos_1d frameWidth
        (fun c => (List.range cropHeight).any
          (fun r => fr (PLAY_AREA_TOP + r) c == BALL_COLOR)) = none := by
      apply get_mean_pos_1d_eq_none
      intro c hc
      rw [List.any_eq_false]
      intro r hr
      simp [h r c (List.mem_range.mp hr) hc]
    simp [Positions.update, hx]
  · intro p fr h
    have hA : get_mean_pos_1d cropHeight
        (fun r => fr (PLAY_AREA_TOP + r) AGENT_X == AGENT_COLOR) = none := by
      apply get_mean_pos_1d_eq_none
      intro r hr
      simp [h r hr]
    simp [Positions.update, hA]
  · intro p fr h
    have hO : get_mean_pos_1d cropHeight
        (fun r => fr (PLAY_AREA_TOP + r) OPPONENT_X == OPPONENT_COLOR) = none := by
      apply get_mean_pos_1d_eq_none
      intro r hr
      simp [h r hr]
    simp [Positions.update, hO]

theorem positions_detection_miss_holdover_witness :
    ((posInit.update (fun _ _ => BACKGROUND_COLOR)).ball = posInit.ball) ∧
    ((posInit.update (fun _ _ => BACKGROUND_COLOR)).agent = posInit.agent) ∧
    ((posInit.update (fun _ _ => BACKGROUND_COLOR)).opponent = posInit.opponent) :=
  ⟨positions_detection_miss_holdover.1 posInit _ (fun _ _ _ _ => by decide),
   positions_detection_miss_holdover.2.1 posInit _ (fun _ _ => by decide),
   positions_detection_miss_holdover.2.2 posInit _ (fun _ _ => by decide)⟩

/-- Claim C6: from the initial position state, Positions.update keeps the
ball y-centroid and agent y-centroid inside the 160-row cropped field, so
the RelativeBall.process value (ball y minus agent y) always lies in the
enumerated domain; hence StateIndex.process cannot hit its out-of-domain
error branch and returns an index i with 0 <= i < N, N the enumeration
size. -/
theorem relativeBall_domain_closure :
    PosInv posInit ∧
    (∀ (p : Positions) (fr : Frame), PosInv p → PosInv (p.update fr)) ∧
    (∀ (p : Positions) (fr : Frame), PosInv p →
      (relativeBallStep p fr).1 ∈ relativeBallEnum ∧
      ∃ i, state2index relativeBallEnum (relativeBallStep p fr).1 = some i ∧
        i < relativeBallEnum.length) := by
  refine ⟨by constructor <;> decide, fun p fr h => posInv_update p fr h, ?_⟩
  intro p fr h
  obtain ⟨hb, ha⟩ := posInv_update p fr h
  have hmem : (relativeBallStep p fr).1 ∈ relativeBallEnum := by
    show relativeBallValue (p.update fr) ∈ relativeBallEnum
    exact relativeBall_mem_enum _ _ hb ha
  refine ⟨hmem, ?_⟩
  obtain ⟨i, hi⟩ := state2index_some_of_mem _ _ hmem
  obtain ⟨hlt, _⟩ := state2index_get _ _ _ hi
  exact ⟨i, hi, hlt⟩

theorem relativeBall_domain_closure_witness :
    PosInv posInit ∧
    ((relativeBallStep posInit (fun _ _ => BACKGROUND_COLOR)).1 ∈ relativeBallEnum ∧
      ∃ i, state2index relativeBallEnum
        (relativeBallStep posInit (fun _ _ => BACKGROUND_COLOR)).1 = some i ∧
        i < relativeBallEnum.length) :=
  ⟨by constructor <;> decide,
   relativeBall_domain_closure.2.2 posInit (fun _ _ => BACKGROUND_COLOR)
     (by constructor <;> decide)⟩

/-- Claim C9: on_episode_end only performs the no-op experience flush: the
Q table, the eligibility table, the stored previous (state, action) pair
and the pending reward accumulator are all unchanged, so eligibility traces
carry over across episode boundaries. -/
theorem on_episode_end_preserves_state (ag : SarsaAgent) :
    (on_episode_end ag).q_vals = ag.q_vals ∧
    (on_episode_end ag).e_vals = ag.e_vals ∧
    (on_episode_end ag).s_ = ag.s_ ∧
    (on_episode_end ag).a_ = ag.a_ ∧
    (on_episode_end ag).r_ = ag.r_ :=
  ⟨rfl, rfl, rfl, rfl, rfl⟩

/-- Full characterization of a non-skipped decision call of select_action,
for a recognized trace rule. Shared by the claims about the decision step. -/
theorem decision_step_eq (ag : SarsaAgent) (sid : Nat) (o : Option Nat)
    (rule : TraceRule) (hrule : traceRuleOf ag.trace_type = some rule)
    (hdec : ag.repeatCounter = 0) :
    (select_action ag sid o).1 = e_greedy ag sid o ∧
    (∀ i j, (select_action ag sid o).2.q_vals i j =
      ag.q_vals i j + ag.learning_rate *
        (ag.r_ + ag.discount * ag.q_vals sid (e_greedy ag sid o) -
          ag.q_vals ag.s_ ag.a_) *
        specTraceUpdate rule ag.learning_rate ag.e_vals ag.s_ ag.a_ i j) ∧
    (∀ i j, (select_action ag sid o).2.e_vals i j =
      specTraceUpdate rule ag.learning_rate ag.e_vals ag.s_ ag.a_ i j *
        (ag.discount * ag.lambda_v)) ∧
    (select_action ag sid o).2.s_ = sid ∧
    (select_action ag sid o).2.a_ = e_greedy ag sid o ∧
    (select_action ag sid o).2.r_ = 0 := by
  unfold traceRuleOf at hrule
  unfold select_action
  rw [if_pos hdec]
  by_cases h1 : ag.trace_type = "accumulating"
  · rw [if_pos h1] at hrule
    simp only [Option.some.injEq] at hrule
    subst hrule
    refine ⟨rfl, ?_, ?_, rfl, rfl, rfl⟩ <;> intro i j <;>
      simp [repeatManagerSet, decisionTD, updEntry, specTraceUpdate, h1]
  · rw [if_neg h1] at hrule
    by_cases h2 : ag.trace_type = "replacing"
    · rw [if_pos h2] at hrule
      simp only [Option.some.injEq] at hrule
      subst hrule
      refine ⟨rfl, ?_, ?_, rfl, rfl, rfl⟩ <;> intro i j <;>
        simp [repeatManagerSet, decisionTD, updEntry, specTraceUpdate, h1, h2]
    · rw [if_neg h2] at hrule
      by_cases h3 : ag.trace_type = "dutch"
      · rw [if_pos h3] at hrule
        simp only [Option.some.injEq] at hrule
        subst hrule
        refine ⟨rfl, ?_, ?_, rfl, rfl, rfl⟩ <;> intro i j <;>
          simp [repeatManagerSet, decisionTD, updEntry, specTraceUpdate, h1, h2, h3]
      · rw [if_neg h3] at hrule
        cases hrule

/-- Claim C1: on a non-skipped decision step, select_action computes the TD
error d = r + discount * Q[s', a'] - Q[s, a] from the stored pair (s, a) =
(s_, a_), the accumulated reward r = r_, the fresh state index s' = sid and
the chosen action a'; updates E[s, a] per the configured trace rule; adds
learning_rate * d * E to every Q entry using the already-bumped trace; and
finally scales every E entry by discount * lambda_v — in that order. -/
theorem sarsa_decision_step_update (ag : SarsaAgent) (sid : Nat) (o : Option Nat)
    (rule : TraceRule) (hrule : traceRuleOf ag.trace_type = some rule)
    (hdec : ag.repeatCounter = 0) :
    (select_action ag sid o).1 = e_greedy ag sid o ∧
    (∀ i j, (select_action ag sid o).2.q_vals i j =
      ag.q_vals i j + ag.learning_rate *
        (ag.r_ + ag.discount * ag.q_vals sid (e_greedy ag sid o) -
          ag.q_vals ag.s_ ag.a_) *
        specTraceUpdate rule ag.learning_rate ag.e_vals ag.s_ ag.a_ i j) ∧
    (∀ i j, (select_action ag sid o).2.e_vals i j =
      specTraceUpdate rule ag.learning_rate ag.e_vals ag.s_ ag.a_ i j *
        (ag.discount * ag.lambda_v)) := by
  obtain ⟨h1, h2, h3, _⟩ := decision_step_eq ag sid o rule hrule hdec
  exact ⟨h1, h2, h3⟩

/-- The spec's section 8 example agent: 5 states, 2 actions, learning rate
0.1, discount 0.9, lambda 0.5, replacing traces, seeded previous pair
(0, 0) with accumulated reward 1. -/
def exampleAgent : SarsaAgent :=
  { sarsaSetup 1 "replacing" (1/10) (9/10) (1/2) 5 2 with r_ := 1 }

theorem sarsa_decision_step_update_witness :
    traceRuleOf exampleAgent.trace_type = some TraceRule.replacing ∧
    exampleAgent.repeatCounter = 0 ∧
    (∀ i j, (select_action exampleAgent 2 none).2.e_vals i j =
      specTraceUpdate TraceRule.replacing exampleAgent.learning_rate
        exampleAgent.e_vals exampleAgent.s_ exampleAgent.a_ i j *
        (exampleAgent.discount * exampleAgent.lambda_v)) :=
  ⟨by decide, by decide,
   (sarsa_decision_step_update exampleAgent 2 none TraceRule.replacing
     (by decide) (by decide)).2.2⟩

theorem foldl_receive_reward (rs : List ℚ) :
    ∀ ag : SarsaAgent, (rs.foldl receive_reward ag).r_ = ag.r_ + rs.sum ∧
      (rs.foldl receive_reward ag).q_vals = ag.q_vals ∧
      (rs.foldl receive_reward ag).s_ = ag.s_ ∧
      (rs.foldl receive_reward ag).a_ = ag.a_ ∧
      (rs.foldl receive_reward ag).discount = ag.discount := by
  induction rs with
  | nil => intro ag; exact ⟨by simp, rfl, rfl, rfl, rfl⟩
  | cons r rest ih =>
    intro ag
    simp only [List.foldl_cons]
    obtain ⟨h1, h2, h3, h4, h5⟩ := ih (receive_reward ag r)
    refine ⟨?_, h2, h3, h4, h5⟩
    rw [h1]
    show ag.r_ + r + rest.sum = ag.r_ + (r :: rest).sum
    rw [List.sum_cons]
    ring

/-- Claim C2: N reward notifications r_1..r_N arriving while the pending
reward is drained (r_ = 0) accumulate to exactly their sum, and the TD
error of the next decision step uses exactly that sum as its reward term;
the accumulator is reset to 0 by a completed decision step, while skipped
action-repeat calls leave it untouched. -/
theorem reward_sum_and_drain :
    (∀ (ag : SarsaAgent) (rs : List ℚ), ag.r_ = 0 →
      (rs.foldl receive_reward ag).r_ = rs.sum ∧
      (∀ sid a', decisionTD (rs.foldl receive_reward ag) sid a' =
        rs.sum + ag.discount * ag.q_vals sid a' - ag.q_vals ag.s_ ag.a_)) ∧
    (∀ (ag : SarsaAgent) (sid : Nat) (o : Option Nat), ag.repeatCounter = 0 →
      (select_action ag sid o).2.r_ = 0) ∧
    (∀ (ag : SarsaAgent) (sid : Nat) (o : Option Nat), 0 < ag.repeatCounter →
      (select_action ag sid o).2.r_ = ag.r_) := by
  refine ⟨?_, ?_, ?_⟩
  · intro ag rs h0
    obtain ⟨h1, h2, h3, h4, h5⟩ := foldl_receive_reward rs ag
    constructor
    · rw [h1, h0, zero_add]
    · intro sid a'
      unfold decisionTD
      rw [h1, h2, h3, h4, h5, h0, zero_add]
  · intro ag sid o h
    unfold select_action
    rw [if_pos h]
  · intro ag sid o h
    unfold select_action
    rw [if_neg (by omega)]

theorem reward_sum_and_drain_witness :
    (sarsaSetup 4 "replacing" (1/1000) (99/100) (1/2) 5 2).r_ = 0 ∧
    (([(1 : ℚ), 2, 3].foldl receive_reward
        (sarsaSetup 4 "replacing" (1/1000) (99/100) (1/2) 5 2)).r_ =
      [(1 : ℚ), 2, 3].sum ∧
     (∀ sid a', decisionTD
        ([(1 : ℚ), 2, 3].foldl receive_reward
          (sarsaSetup 4 "replacing" (1/1000) (99/100) (1/2) 5 2)) sid a' =
        [(1 : ℚ), 2, 3].sum +
          (sarsaSetup 4 "replacing" (1/1000) (99/100) (1/2) 5 2).discount *
            (sarsaSetup 4 "replacing" (1/1000) (99/100) (1/2) 5 2).q_vals sid a' -
          (sarsaSetup 4 "replacing" (1/1000) (99/100) (1/2) 5 2).q_vals
            (sarsaSetup 4 "replacing" (1/1000) (99/100) (1/2) 5 2).s_
            (sarsaSetup 4 "replacing" (1/1000) (99/100) (1/2) 5 2).a_)) ∧
    (select_action (sarsaSetup 4 "replacing" (1/1000) (99/100) (1/2) 5 2) 3 none).2.r_ = 0 ∧
    0 < ({ sarsaSetup 4 "replacing" (1/1000) (99/100) (1/2) 5 2 with
            repeatCounter := 2, r_ := 7 } : SarsaAgent).repeatCounter ∧
    (select_action ({ sarsaSetup 4 "replacing" (1/1000) (99/100) (1/2) 5 2 with
        repeatCounter := 2, r_ := 7 } : SarsaAgent) 3 none).2.r_ =
      ({ sarsaSetup 4 "replacing" (1/1000) (99/100) (1/2) 5 2 with
          repeatCounter := 2, r_ := 7 } : SarsaAgent).r_ :=
  ⟨rfl,
   reward_sum_and_drain.1 (sarsaSetup 4 "replacing" (1/1000) (99/100) (1/2) 5 2)
     [(1 : ℚ), 2, 3] rfl,
   reward_sum_and_drain.2.1 (sarsaSetup 4 "replacing" (1/1000) (99/100) (1/2) 5 2)
     3 none rfl,
   by decide,
   reward_sum_and_drain.2.2 _ 3 none (by decide)⟩

theorem select_action_skip (ag : SarsaAgent) (sid : Nat) (o : Option Nat)
    (h : ag.repeatCounter ≠ 0) :
    select_action ag sid o =
      (ag.repeatValue, { ag with repeatCounter := ag.repeatCounter - 1 }) := by
  unfold select_action
  rw [if_neg h]

theorem runSelects_skips :
    ∀ (inputs : List (Nat × Option Nat)) (ag : SarsaAgent),
      inputs.length ≤ ag.repeatCounter →
      (runSelects ag inputs).1 = List.replicate inputs.length ag.repeatValue ∧
      (runSelects ag inputs).2.q_vals = ag.q_vals ∧
      (runSelects ag inputs).2.e_vals = ag.e_vals ∧
      (runSelects ag inputs).2.r_ = ag.r_ ∧
      (runSelects ag inputs).2.repeatValue = ag.repeatValue ∧
      (runSelects ag inputs).2.repeatCounter = ag.repeatCounter - inputs.length := by
  intro inputs
  induction inputs with
  | nil => intro ag _; exact ⟨rfl, rfl, rfl, rfl, rfl, by simp [runSelects]⟩
  | cons inp rest ih =>
    intro ag h
    have hne : ag.repeatCounter ≠ 0 := by
      simp only [List.length_cons] at h
      omega
    have hlen : rest.length ≤ ag.repeatCounter - 1 := by
      simp only [List.length_cons] at h
      omega
    simp only [runSelects, select_action_skip ag inp.1 inp.2 hne]
    obtain ⟨h1, h2, h3, h4, h5, h6⟩ :=
      ih ({ ag with repeatCounter := ag.repeatCounter - 1 }) hlen
    refine ⟨?_, h2, h3, h4, h5, ?_⟩
    · rw [h1]
      simp [List.replicate]
    · rw [h6]
      simp only [List.length_cons]
      omega

/-- Claim C3: after a decision call (which arms the frame-skip schedule
with n_frames_per_action - 1 repeats of the chosen action), every call
while repeats remain returns that same action and leaves every entry of Q
and E (and the pending reward) unchanged, counting the schedule down; a
call with the schedule exhausted is a decision call, which returns the
epsilon-greedy action, stores it as the action to repeat and re-arms the
schedule — so exactly 1 of every n_frames_per_action consecutive calls
performs the SARSA table update. -/
theorem frame_skip_gating :
    (∀ (ag : SarsaAgent) (inputs : List (Nat × Option Nat)),
      inputs.length ≤ ag.repeatCounter →
      (runSelects ag inputs).1 = List.replicate inputs.length ag.repeatValue ∧
      (runSelects ag inputs).2.q_vals = ag.q_vals ∧
      (runSelects ag inputs).2.e_vals = ag.e_vals ∧
      (runSelects ag inputs).2.repeatCounter = ag.repeatCounter - inputs.length) ∧
    (∀ (ag : SarsaAgent) (sid : Nat) (o : Option Nat), ag.repeatCounter = 0 →
      (select_action ag sid o).1 = e_greedy ag sid o ∧
      (select_action ag sid o).2.repeatValue = (select_action ag sid o).1 ∧
      (select_action ag sid o).2.repeatCounter = ag.n_frames_per_action - 1) := by
  constructor
  · intro ag inputs h
    obtain ⟨h1, h2, h3, _, _, h6⟩ := runSelects_skips inputs ag h
    exact ⟨h1, h2, h3, h6⟩
  · intro ag sid o h
    unfold select_action
    rw [if_pos h]
    exact ⟨rfl, rfl, rfl⟩

theorem frame_skip_gating_witness :
    ([((2 : Nat), (none : Option Nat)), (0, none), (4, some 1)].length ≤
      ({ sarsaSetup 4 "replacing" (1/1000) (99/100) (1/2) 5 2 with
          repeatValue := 1, repeatCounter := 3 } : SarsaAgent).repeatCounter ∧
     (runSelects ({ sarsaSetup 4 "replacing" (1/1000) (99/100) (1/2) 5 2 with
        repeatValue := 1, repeatCounter := 3 } : SarsaAgent)
        [((2 : Nat), (none : Option Nat)), (0, none), (4, some 1)]).1 =
      List.replicate 3
        ({ sarsaSetup 4 "replacing" (1/1000) (99/100) (1/2) 5 2 with
            repeatValue := 1, repeatCounter := 3 } : SarsaAgent).repeatValue) ∧
    ((sarsaSetup 4 "replacing" (1/1000) (99/100) (1/2) 5 2).repeatCounter = 0 ∧
     (select_action (sarsaSetup 4 "replacing" (1/1000) (99/100) (1/2) 5 2)
        2 none).2.repeatCounter =
      (sarsaSetup 4 "replacing" (1/1000) (99/100) (1/2) 5 2).n_frames_per_action - 1) :=
  ⟨⟨by decide,
    (frame_skip_gating.1 ({ sarsaSetup 4 "replacing" (1/1000) (99/100) (1/2) 5 2 with
      repeatValue := 1, repeatCounter := 3 } : SarsaAgent)
      [((2 : Nat), (none : Option Nat)), (0, none), (4, some 1)] (by decide)).1⟩,
   ⟨rfl,
    (frame_skip_gating.2 (sarsaSetup 4 "replacing" (1/1000) (99/100) (1/2) 5 2)
      2 none rfl).2.2⟩⟩

/-- The claim of C4 fails on the code: there is no AWAIT_FIRST_STATE guard
in select_action, so the very first call already runs the update against
the fictitious stored pair (0, 0); with replacing traces and discount 0.99,
lambda 0.5 the trace entry E[0, 0] ends the call at 0.495, not at its
pre-call value 0. -/
theorem first_call_counterexample :
    ¬ ((select_action (sarsaSetup 4 "replacing" (1/1000) (99/100) (1/2) 5 2)
        2 none).2.e_vals 0 0 =
      (sarsaSetup 4 "replacing" (1/1000) (99/100) (1/2) 5 2).e_vals 0 0) := by
  intro hcl
  obtain ⟨_, _, he, _⟩ :=
    decision_step_eq (sarsaSetup 4 "replacing" (1/1000) (99/100) (1/2) 5 2) 2 none
      TraceRule.replacing rfl rfl
  have h1 := he 0 0
  rw [hcl] at h1
  simp only [specTraceUpdate, sarsaSetup, set_available_actions, SarsaAgent.init] at h1
  norm_num at h1

/-- Claim C4 (amended): the first call to select_action after construction
and table allocation records the (state, action) pair and leaves every
entry of Q unchanged — the TD error is 0 because Q is zero-initialized and
no reward has accrued — but it is not a no-op on the trace table: the
trace entry E[0, 0] for the fictitious initial pair is written per the
trace rule and the whole table is decayed, leaving E[0, 0] =
discount * lambda_v. -/
theorem first_call_q_unchanged_trace_written (k : Nat) (tt : String)
    (lr disc lam : ℚ) (nS nA sid : Nat) (o : Option Nat) (rule : TraceRule)
    (hrule : traceRuleOf tt = some rule) :
    (∀ i j, (select_action (sarsaSetup k tt lr disc lam nS nA) sid o).2.q_vals i j =
      (sarsaSetup k tt lr disc lam nS nA).q_vals i j) ∧
    (select_action (sarsaSetup k tt lr disc lam nS nA) sid o).2.e_vals 0 0 =
      disc * lam ∧
    (select_action (sarsaSetup k tt lr disc lam nS nA) sid o).2.s_ = sid ∧
    (select_action (sarsaSetup k tt lr disc lam nS nA) sid o).2.a_ =
      e_greedy (sarsaSetup k tt lr disc lam nS nA) sid o := by
  obtain ⟨_, hq, he, hs, ha, _⟩ :=
    decision_step_eq (sarsaSetup k tt lr disc lam nS nA) sid o rule hrule rfl
  refine ⟨?_, ?_, hs, ha⟩
  · intro i j
    rw [hq i j]
    show (0 : ℚ) + lr * ((0 : ℚ) + disc * 0 - 0) * _ = (0 : ℚ)
    ring
  · rw [he 0 0]
    show specTraceUpdate rule lr (fun _ _ => (0 : ℚ)) 0 0 0 0 * (disc * lam) = disc * lam
    cases rule <;> simp [specTraceUpdate]

/-- Claim C7 fails on the code: when the last-seen and current ball
positions coincide, the derived velocity is (0, 0); the first bounce
divides by zero (giving an infinity), multiplies it back by the zero
velocity (giving NaN positions), and every subsequent next_intercept call
reports a TOP event on an unchanged (NaN, NaN) / (0, 0) state, so the
"while edge != RIGHT" loop never reaches an agent-side crossing: no fuel
bound ever suffices, i.e. BallIntercept.process loops forever. -/
theorem intercept_zero_velocity_never_terminates (fuel : Nat) :
    interceptProcess fuel (F.fin 60, F.fin 80) (F.fin 60, F.fin 80) = none := by
  have hstep2 : next_intercept (F.nan, F.nan) (F.fin 0, F.fin 0) =
      ((F.nan, F.nan), (F.fin 0, F.fin 0), EDGE_TOP) := by
    norm_num [next_intercept, top_bottom_intercept, fvScale, fvAddScaled,
      F.lt, F.le, F.div, F.sub, F.add, F.neg, F.mul,
      EDGE_TOP, EDGE_RIGHT, EDGE_LEFT, EDGE_BOTTOM,
      OPPONENT_X, AGENT_X, PLAY_AREA_TOP, PLAY_AREA_BOTTOM]
  have key : ∀ n, interceptLoop n (F.nan, F.nan) (F.fin 0, F.fin 0) = none := by
    intro n
    induction n with
    | zero => rfl
    | succ m ih =>
      rw [interceptLoop]
      simp only [hstep2]
      rw [if_neg (by decide)]
      exact ih
  have hstep1 : next_intercept (F.fin 60, F.fin 80) (F.fin 0, F.fin 0) =
      ((F.nan, F.nan), (F.fin 0, F.fin 0), EDGE_TOP) := by
    norm_num [next_intercept, top_bottom_intercept, fvScale, fvAddScaled,
      F.lt, F.le, F.div, F.sub, F.add, F.neg, F.mul,
      EDGE_TOP, EDGE_RIGHT, EDGE_LEFT, EDGE_BOTTOM,
      OPPONENT_X, AGENT_X, PLAY_AREA_TOP, PLAY_AREA_BOTTOM]
  cases fuel with
  | zero => rfl
  | succ m =>
    have hvel : (F.sub (F.fin 60) (F.fin 60), F.sub (F.fin 80) (F.fin 80)) =
        ((F.fin 0 : F), (F.fin 0 : F)) := by
      norm_num [F.sub, F.add, F.neg]
    unfold interceptProcess
    rw [hvel, interceptLoop]
    simp only [hstep1]
    rw [if_neg (by decide)]
    exact key m

theorem unknownTrace_step (ag : SarsaAgent) (h : traceRuleOf ag.trace_type = none)
    (hq : ∀ i j, ag.q_vals i j = 0) (he : ∀ i j, ag.e_vals i j = 0)
    (ev : AgentEvent) :
    (applyEvent ag ev).trace_type = ag.trace_type ∧
    (∀ i j, (applyEvent ag ev).q_vals i j = 0) ∧
    (∀ i j, (applyEvent ag ev).e_vals i j = 0) := by
  unfold traceRuleOf at h
  have h1 : ag.trace_type ≠ "accumulating" := fun hcon => by
    rw [if_pos hcon] at h
    exact Option.noConfusion h
  have h2 : ag.trace_type ≠ "replacing" := fun hcon => by
    rw [if_neg h1, if_pos hcon] at h
    exact Option.noConfusion h
  have h3 : ag.trace_type ≠ "dutch" := fun hcon => by
    rw [if_neg h1, if_neg h2, if_pos hcon] at h
    exact Option.noConfusion h
  cases ev with
  | rew r => exact ⟨rfl, hq, he⟩
  | epEnd => exact ⟨rfl, hq, he⟩
  | sel sid o =>
    simp only [applyEvent]
    by_cases hdec : ag.repeatCounter = 0
    · unfold select_action
      rw [if_pos hdec]
      refine ⟨rfl, ?_, ?_⟩ <;> intro i j <;>
        simp [repeatManagerSet, h1, h2, h3, hq, he]
    · rw [select_action_skip ag sid o hdec]
      exact ⟨rfl, hq, he⟩

theorem unknownTrace_run (evs : List AgentEvent) :
    ∀ ag : SarsaAgent, traceRuleOf ag.trace_type = none →
      (∀ i j, ag.q_vals i j = 0) → (∀ i j, ag.e_vals i j = 0) →
      (∀ i j, (runEvents ag evs).q_vals i j = 0) ∧
      (∀ i j, (runEvents ag evs).e_vals i j = 0) := by
  induction evs with
  | nil => intro ag _ hq he; exact ⟨hq, he⟩
  | cons ev rest ih =>
    intro ag h hq he
    obtain ⟨ht, hq', he'⟩ := unknownTrace_step ag h hq he ev
    have h' : traceRuleOf (applyEvent ag ev).trace_type = none := by
      rw [ht]
      exact h
    exact ih (applyEvent ag ev) h' hq' he'

/-- Claim C10: a trace_type string outside accumulating/replacing/dutch is
accepted without any error (construction and select_action are total and
perform no validation); every decision step then silently skips the
trace-increment branch, so over any run of decision calls, reward
notifications and episode ends, E (initialized to zero and only ever
scaled) stays identically zero and Q (changed only by adding
learning_rate * d * E) stays identically zero: the agent never learns. -/
theorem unknown_trace_type_never_learns (k : Nat) (tt : String)
    (lr disc lam : ℚ) (nS nA : Nat) (h : traceRuleOf tt = none)
    (evs : List AgentEvent) :
    (∀ i j, (runEvents (sarsaSetup k tt lr disc lam nS nA) evs).q_vals i j = 0) ∧
    (∀ i j, (runEvents (sarsaSetup k tt lr disc lam nS nA) evs).e_vals i j = 0) :=
  unknownTrace_run evs (sarsaSetup k tt lr disc lam nS nA) h
    (fun _ _ => rfl) (fun _ _ => rfl)

theorem unknown_trace_type_never_learns_witness :
    traceRuleOf "foo" = none ∧
    ((∀ i j, (runEvents (sarsaSetup 4 "foo" (1/1000) (99/100) (1/2) 5 2)
        [AgentEvent.rew 1, AgentEvent.sel 3 none, AgentEvent.sel 0 (some 1),
         AgentEvent.epEnd, AgentEvent.sel 2 none]).q_vals i j = 0) ∧
     (∀ i j, (runEvents (sarsaSetup 4 "foo" (1/1000) (99/100) (1/2) 5 2)
        [AgentEvent.rew 1, AgentEvent.sel 3 none, AgentEvent.sel 0 (some 1),
         AgentEvent.epEnd, AgentEvent.sel 2 none]).e_vals i j = 0)) :=
  ⟨by decide,
   unknown_trace_type_never_learns 4 "foo" (1/1000) (99/100) (1/2) 5 2 (by decide)
     [AgentEvent.rew 1, AgentEvent.sel 3 none, AgentEvent.sel 0 (some 1),
      AgentEvent.epEnd, AgentEvent.sel 2 none]⟩

theorem first_call_q_unchanged_trace_written_witness :
    traceRuleOf "dutch" = some TraceRule.dutch ∧
    ((∀ i j, (select_action (sarsaSetup 4 "dutch" (1/1000) (99/100) (1/2) 5 2)
        2 none).2.q_vals i j =
      (sarsaSetup 4 "dutch" (1/1000) (99/100) (1/2) 5 2).q_vals i j) ∧
    (select_action (sarsaSetup 4 "dutch" (1/1000) (99/100) (1/2) 5 2)
        2 none).2.e_vals 0 0 = (99/100 : ℚ) * (1/2) ∧
    (select_action (sarsaSetup 4 "dutch" (1/1000) (99/100) (1/2) 5 2) 2 none).2.s_ = 2 ∧
    (select_action (sarsaSetup 4 "dutch" (1/1000) (99/100) (1/2) 5 2) 2 none).2.a_ =
      e_greedy (sarsaSetup 4 "dutch" (1/1000) (99/100) (1/2) 5 2) 2 none) :=
  ⟨by decide,
   first_call_q_unchanged_trace_written 4 "dutch" (1/1000) (99/100) (1/2) 5 2
     2 none TraceRule.dutch (by decide)⟩
